import Mathlib

set_option maxRecDepth 10000

/-!
# Verification of the PSD Procedural Logic Engine knowledge scoper

Shallow embedding of the two revisions of `useKnowledgeScoper`:
* `useKnowledgeScoper`   — v3, `src/hooks/useKnowledgeScoper.ts` (look-ahead heuristics);
* `useKnowledgeScoperV2` — v2, `src/unnamed/part_000` (explicit syntax rules only).

Conventions of the embedding:
* JS strings are Lean `String`s, handled through their codepoint list `String.data`
  (JS `length` counts UTF-16 units; for the code points involved here the counts agree).
* `undefined | string` input is `Option String`; the JS falsiness test `!rawRules`
  accepts both `undefined` and `""`.
* A JS `Record<string, string[]>` is an insertion-ordered association list with unique
  keys; `Object.keys` is modelled by `objectKeys`, which reproduces the ECMAScript
  own-property-key order (integer-index keys ascending first, then string keys in
  insertion order).
* The possibly-throwing access `scopes[currentScope].push(...)` is modelled as a
  fallible step (`Option`), so totality of the pipeline is a theorem, not an axiom
  of the model.
* JS `toUpperCase` is modelled per code point by core `Char.toUpper` (basic-latin
  case mapping); JS `trim` and `\s` use the set of JS whitespace code points.
-/

/-- The code points JS counts as whitespace: the `\s` character class and the set
removed by `String.prototype.trim` (WhiteSpace ∪ LineTerminator). -/
def jsIsSpace (c : Char) : Bool :=
  let n := c.toNat
  n = 32 || n = 9 || n = 10 || n = 11 || n = 12 || n = 13 ||
  n = 0xA0 || n = 0x1680 || (0x2000 ≤ n && n ≤ 0x200A) ||
  n = 0x2028 || n = 0x2029 || n = 0x202F || n = 0x205F || n = 0x3000 || n = 0xFEFF

/-- JS line terminators (which `.` does not match in a regex without the `s` flag). -/
def isLineTerm (c : Char) : Bool :=
  let n := c.toNat
  n = 10 || n = 13 || n = 0x2028 || n = 0x2029

/-- Strip leading and trailing JS whitespace from a character list. -/
def trimChars (l : List Char) : List Char :=
  ((l.dropWhile jsIsSpace).reverse.dropWhile jsIsSpace).reverse

/-- JS `String.prototype.trim`. -/
def jsTrim (s : String) : String := ⟨trimChars s.data⟩

/-- JS `String.prototype.toUpperCase`, restricted to the basic-latin case mapping. -/
def jsToUpper (s : String) : String := ⟨s.data.map Char.toUpper⟩

/-- JS `rawRules.split('\n')` on a character list: pieces between newline characters. -/
def splitNl : List Char → List (List Char)
  | [] => [[]]
  | c :: rest =>
    let r := splitNl rest
    if c = '\n' then [] :: r
    else
      match r with
      | h :: t => (c :: h) :: t
      | [] => [[c]]

/-- JS `rawRules.split('\n')`. -/
def jsSplitLines (s : String) : List String := (splitNl s.data).map fun l => ⟨l⟩

/-- Bracket regex `^\[([^\]]+)\]:?$` of the source: the whole line is `[<text>]` with an optional
trailing colon, `<text>` nonempty and free of `]`; returns the captured `<text>`. -/
def bracketMatch (s : String) : Option String :=
  if s.data.head? = some '[' then
    let rest := s.data.tail
    let inner := rest.takeWhile fun x => x ≠ ']'
    let rem := rest.dropWhile fun x => x ≠ ']'
    if inner.isEmpty then none
    else if rem = [']'] || rem = [']', ':'] then some ⟨inner⟩ else none
  else none

/-- Markdown regex `^#+\s+(.+)$` of the source: one or more `#`, then whitespace, then a remainder
matched by `.+` (so the remainder may contain no line terminator; when the line ends
in whitespace the backtracking `\s+` yields its final character to `.+`). -/
def mdMatch (s : String) : Option String :=
  let hashes := s.data.takeWhile fun c => c = '#'
  let afterHash := s.data.dropWhile fun c => c = '#'
  let ws := afterHash.takeWhile jsIsSpace
  let rem := afterHash.dropWhile jsIsSpace
  if hashes.isEmpty || ws.isEmpty || rem.any isLineTerm then none
  else if !rem.isEmpty then some ⟨rem⟩
  else
    match ws.getLast? with
    | some c => if ws.length ≥ 2 && !isLineTerm c then some ⟨[c]⟩ else none
    | none => none

/-- Bold regex `^\*\*([^*]+)\*\*:?$` of the source: the whole line is `**<text>**` with an
optional trailing colon, `<text>` nonempty and free of `*`. -/
def boldMatch (s : String) : Option String :=
  match s.data with
  | '*' :: '*' :: rest =>
    let inner := rest.takeWhile fun c => c ≠ '*'
    let rem := rest.dropWhile fun c => c ≠ '*'
    if inner.isEmpty then none
    else if rem = ['*', '*'] || rem = ['*', '*', ':'] then some ⟨inner⟩ else none
  | _ => none

/-- The character class of the colon-header rule: ASCII letters, digits, space,
underscore, slash and dash. -/
def colonClass (c : Char) : Bool :=
  c.isAlpha || c.isDigit || c = ' ' || c = '_' || c = '/' || c = '-'

/-- The colon-header regex of the source: the whole line is a nonempty run of
`colonClass` characters followed by a final `:`; returns the text before the
colon. -/
def colonMatch (s : String) : Option String :=
  if s.data.getLast? = some ':' then
    let body := s.data.dropLast
    if !body.isEmpty && body.all colonClass then some ⟨body⟩ else none
  else none

/-- The explicit-syntax header chain shared by v2 and v3: bracket, markdown, bold,
then colon (the colon rule additionally requires `line.length < 50`). -/
def rules14 (line : String) : Option String :=
  match bracketMatch line with
  | some h => some h
  | none =>
    match mdMatch line with
    | some h => some h
    | none =>
      match boldMatch line with
      | some h => some h
      | none =>
        match colonMatch line with
        | some h => if line.length < 50 then some h else none
        | none => none

/-- List-item test of the source (regex `^(?:\d+\.|[-*•])\s`): the string starts with a digit run plus `.`,
or with `-`, `*` or `•`, followed by one whitespace character. -/
def isListItem (s : String) : Bool :=
  (match s.data with
   | c :: d :: _ => (c = '-' || c = '*' || c = '•') && jsIsSpace d
   | _ => false) ||
  (let ds := s.data.takeWhile Char.isDigit
   let after := s.data.dropWhile Char.isDigit
   !ds.isEmpty &&
     (match after with
      | '.' :: e :: _ => jsIsSpace e
      | _ => false))

/-- The v3 scan for the next non-blank line: skip lines that trim to empty and
return the first remaining line, trimmed; `""` when none exists. -/
def nextNonBlank : List String → String
  | [] => ""
  | l :: ls => if (jsTrim l).data.isEmpty then nextNonBlank ls else jsTrim l

/-- Sentence test of the source (regex `[.!?]$`): the string ends in sentence-terminal punctuation. -/
def endsSentence (s : String) : Bool :=
  match s.data.getLast? with
  | some c => c = '.' || c = '!' || c = '?'
  | none => false

/-- v3 HEURISTIC 2: the current (trimmed) line becomes the header iff the next
non-blank line is a list item, the current line is not a list item, is shorter
than 60 characters, and does not end in sentence punctuation. -/
def lookAhead (line : String) (rest : List String) : Option String :=
  let nextLine := nextNonBlank rest
  if isListItem nextLine && !isListItem line &&
      decide (line.length < 60) && !endsSentence line then
    some line
  else none

/-- v3 header detection: explicit rules first, then the look-ahead heuristic. -/
def detectV3 (line : String) (rest : List String) : Option String :=
  match rules14 line with
  | some h => some h
  | none => lookAhead line rest

/-- Interface ScopedKnowledge of both source files: the scope table (insertion-ordered,
unique keys) plus the `availableScopes` name list. -/
structure ScopedKnowledge where
  scopes : List (String × List String)
  availableScopes : List String
deriving DecidableEq, Repr

/-- The mutable state of the per-line pass: the scope table and `currentScope`. -/
structure ScoperState where
  scopes : List (String × List String)
  currentScope : String
deriving DecidableEq, Repr

/-- Constant GLOBAL_KEY of both source files. -/
def GLOBAL_KEY : String := "GLOBAL CONTEXT"

/-- JS property read `scopes[key]` on the association list. -/
def lookupScope : List (String × List String) → String → Option (List String)
  | [], _ => none
  | (k, v) :: rest, key => if key = k then some v else lookupScope rest key

/-- JS `scopes[key].push(line)`: append `line` to the bucket stored under `key`. -/
def pushLine (l : List (String × List String)) (key line : String) :
    List (String × List String) :=
  l.map fun p => if p.1 = key then (p.1, p.2 ++ [line]) else p

/-- JS `detectedHeader.trim().toUpperCase()` of the source. -/
def normalizeScope (h : String) : String := jsToUpper (jsTrim h)

/-- Does the normalized name equal one of the reserved system tags? -/
def isSentinelKey (k : String) : Bool := k = "START KNOWLEDGE" || k = "END KNOWLEDGE"

/-- The APPLY SCOPING branch for a detected header: normalize; a sentinel changes
nothing; otherwise switch `currentScope` and create the bucket if missing. -/
def applyHeader (st : ScoperState) (h : String) : ScoperState :=
  let n := normalizeScope h
  if isSentinelKey n then st
  else
    { scopes := if (lookupScope st.scopes n).isSome then st.scopes
                else st.scopes ++ [(n, [])],
      currentScope := n }

/-- One v3 loop iteration over the raw line `rawLine`, with `rest` the lines after
it (used only by the look-ahead). `none` models a thrown `TypeError` on
`scopes[currentScope].push` when the bucket is absent. -/
def stepV3 (st : ScoperState) (rawLine : String) (rest : List String) :
    Option ScoperState :=
  let line := jsTrim rawLine
  if line.data.isEmpty then some st
  else
    match detectV3 line rest with
    | some h => some (applyHeader st h)
    | none =>
      match lookupScope st.scopes st.currentScope with
      | some _ => some { st with scopes := pushLine st.scopes st.currentScope line }
      | none => none

/-- The v3 `for` loop over all lines. -/
def runV3 : ScoperState → List String → Option ScoperState
  | st, [] => some st
  | st, l :: rest =>
    match stepV3 st l rest with
    | some st₂ => runV3 st₂ rest
    | none => none

/-- One v2 `forEach` iteration: explicit rules only, no look-ahead. -/
def stepV2 (st : ScoperState) (rawLine : String) : Option ScoperState :=
  let line := jsTrim rawLine
  if line.data.isEmpty then some st
  else
    match rules14 line with
    | some h => some (applyHeader st h)
    | none =>
      match lookupScope st.scopes st.currentScope with
      | some _ => some { st with scopes := pushLine st.scopes st.currentScope line }
      | none => none

/-- The v2 `forEach` over all lines. -/
def runV2 : ScoperState → List String → Option ScoperState
  | st, [] => some st
  | st, l :: rest =>
    match stepV2 st l with
    | some st₂ => runV2 st₂ rest
    | none => none

/-- The numeric value of an all-digit key. -/
def keyToNat (s : String) : Nat :=
  s.data.foldl (fun a c => a * 10 + (c.toNat - 48)) 0

/-- An ECMAScript array-index property key: a canonical numeric string (digits
only, no leading zero except `"0"` itself) whose value is below `2^32 - 1`. -/
def isArrayIndexKey (s : String) : Bool :=
  !s.data.isEmpty && s.data.all Char.isDigit &&
  (s.data = ['0'] || s.data.head?.getD '0' ≠ '0') && keyToNat s < 4294967295

/-- Insert a key into a list sorted ascending by numeric value. -/
def insertIdxKey (k : String) : List String → List String
  | [] => [k]
  | x :: xs => if keyToNat k ≤ keyToNat x then k :: x :: xs else x :: insertIdxKey k xs

/-- Insertion sort of array-index keys by ascending numeric value. -/
def sortIdxKeys : List String → List String
  | [] => []
  | x :: xs => insertIdxKey x (sortIdxKeys xs)

/-- JS `Object.keys` in ECMAScript own-property order: array-index keys in ascending
numeric order first, then the remaining string keys in insertion order. -/
def objectKeys (l : List (String × List String)) : List String :=
  sortIdxKeys ((l.map Prod.fst).filter isArrayIndexKey) ++
    (l.map Prod.fst).filter fun k => !isArrayIndexKey k

/-- The state both loops start from: `{ [GLOBAL_KEY]: [] }`, current scope GLOBAL. -/
def initState : ScoperState := ⟨[(GLOBAL_KEY, [])], GLOBAL_KEY⟩

/-- The result literal returned for absent or empty input. -/
def emptyResult : ScopedKnowledge := ⟨[(GLOBAL_KEY, [])], [GLOBAL_KEY]⟩

/-- Assemble the returned object: the table plus `Object.keys(scopes)`. -/
def resultOf (st : ScoperState) : ScopedKnowledge :=
  ⟨st.scopes, objectKeys st.scopes⟩

/-- v3 `useKnowledgeScoper` (src/hooks/useKnowledgeScoper.ts). -/
def useKnowledgeScoper (rawRules : Option String) : Option ScopedKnowledge :=
  match rawRules with
  | none => some emptyResult
  | some r =>
    if r.data.isEmpty then some emptyResult
    else
      match runV3 initState (jsSplitLines r) with
      | some st => some (resultOf st)
      | none => none

/-- v2 `useKnowledgeScoper` (src/unnamed/part_000). -/
def useKnowledgeScoperV2 (rawRules : Option String) : Option ScopedKnowledge :=
  match rawRules with
  | none => some emptyResult
  | some r =>
    if r.data.isEmpty then some emptyResult
    else
      match runV2 initState (jsSplitLines r) with
      | some st => some (resultOf st)
      | none => none

/-- Does the v3 look-ahead heuristic fire on raw line `rawLine` when followed by
`rest`? (It can fire only on a non-blank line missed by the explicit rules.) -/
def lookAheadFires (rawLine : String) (rest : List String) : Bool :=
  let line := jsTrim rawLine
  !line.data.isEmpty && (rules14 line).isNone && (lookAhead line rest).isSome

/-- No line of the list triggers the v3 look-ahead heuristic. -/
def noLookAheadFiring : List String → Bool
  | [] => true
  | l :: rest => !lookAheadFires l rest && noLookAheadFiring rest

/-- The line list an input is split into (`[]` for absent input). -/
def linesOfInput : Option String → List String
  | none => []
  | some s => jsSplitLines s

/-- The invariant maintained by both loops: the current scope owns a bucket, and
no key of the scope table is a reserved sentinel. -/
def GoodState (st : ScoperState) : Prop :=
  (lookupScope st.scopes st.currentScope).isSome = true ∧
  ∀ k ∈ st.scopes.map Prod.fst, isSentinelKey k = false

theorem pushLine_cons (pk : String) (pv : List String)
    (rest : List (String × List String)) (key line : String) :
    pushLine ((pk, pv) :: rest) key line =
      (if pk = key then (pk, pv ++ [line]) else (pk, pv)) :: pushLine rest key line := by
  by_cases hpk : pk = key <;> simp [pushLine, hpk]

theorem lookupScope_pushLine_isSome (l : List (String × List String))
    (key line k : String) :
    (lookupScope (pushLine l key line) k).isSome = (lookupScope l k).isSome := by
  induction l with
  | nil => rfl
  | cons p rest ih =>
    obtain ⟨pk, pv⟩ := p
    rw [pushLine_cons]
    by_cases hpk : pk = key
    · rw [if_pos hpk]
      by_cases hk : k = pk
      · simp [lookupScope, hk]
      · simp [lookupScope, hk, ih]
    · rw [if_neg hpk]
      by_cases hk : k = pk
      · simp [lookupScope, hk]
      · simp [lookupScope, hk, ih]

theorem keys_pushLine (l : List (String × List String)) (key line : String) :
    (pushLine l key line).map Prod.fst = l.map Prod.fst := by
  induction l with
  | nil => rfl
  | cons p rest ih =>
    obtain ⟨pk, pv⟩ := p
    rw [pushLine_cons]
    by_cases hpk : pk = key
    · rw [if_pos hpk]; simpa using ih
    · rw [if_neg hpk]; simpa using ih

theorem lookupScope_append_isSome (l : List (String × List String)) (n : String)
    (c : List String) : (lookupScope (l ++ [(n, c)]) n).isSome = true := by
  induction l with
  | nil => simp [lookupScope]
  | cons p rest ih =>
    by_cases hk : n = p.1
    · simp [lookupScope, hk]
    · obtain ⟨pk, pv⟩ := p
      simp only [List.cons_append, lookupScope]
      simp only at hk
      simp [hk, ih]

theorem applyHeader_good (st : ScoperState) (h : String) (hg : GoodState st) :
    GoodState (applyHeader st h) := by
  obtain ⟨h1, h2⟩ := hg
  unfold applyHeader
  by_cases hs : isSentinelKey (normalizeScope h) = true
  · simp only [hs, if_true]
    exact ⟨h1, h2⟩
  · simp only [hs, if_false, Bool.false_eq_true]
    by_cases hl : (lookupScope st.scopes (normalizeScope h)).isSome = true
    · exact ⟨by simp [hl], by simp only [hl, if_true]; exact h2⟩
    · refine ⟨?_, ?_⟩
      · simpa [hl] using lookupScope_append_isSome st.scopes (normalizeScope h) []
      · simp only [hl, if_false, Bool.false_eq_true, List.map_append, List.map_cons,
          List.map_nil, List.mem_append, List.mem_cons]
        intro k hk
        rcases hk with hk | hk
        · exact h2 k hk
        · rcases hk with hk | hk
          · subst hk; exact Bool.not_eq_true _ ▸ (Bool.eq_false_iff.mpr hs)
          · cases hk

theorem stepV3_good (st : ScoperState) (l : String) (rest : List String)
    (hg : GoodState st) : ∃ st₂, stepV3 st l rest = some st₂ ∧ GoodState st₂ := by
  unfold stepV3
  by_cases hb : (jsTrim l).data.isEmpty
  · exact ⟨st, by simp [hb], hg⟩
  · simp only [hb, if_false, Bool.false_eq_true]
    cases hd : detectV3 (jsTrim l) rest with
    | some h => exact ⟨applyHeader st h, rfl, applyHeader_good st h hg⟩
    | none =>
      obtain ⟨h1, h2⟩ := hg
      obtain ⟨cur, hcur⟩ := Option.isSome_iff_exists.mp h1
      refine ⟨_, by rw [hcur], ?_, ?_⟩
      · simpa [lookupScope_pushLine_isSome] using h1
      · simpa [keys_pushLine] using h2

theorem runV3_good (ls : List String) : ∀ st : ScoperState, GoodState st →
    ∃ st₂, runV3 st ls = some st₂ ∧ GoodState st₂ := by
  induction ls with
  | nil => exact fun st hg => ⟨st, rfl, hg⟩
  | cons l rest ih =>
    intro st hg
    obtain ⟨st₂, hstep, hg₂⟩ := stepV3_good st l rest hg
    obtain ⟨st₃, hrun, hg₃⟩ := ih st₂ hg₂
    exact ⟨st₃, by simpa [runV3, hstep] using hrun, hg₃⟩

theorem stepV2_eq_stepV3_nil (st : ScoperState) (l : String) :
    stepV2 st l = stepV3 st l [] := by
  have hd : ∀ line, detectV3 line [] = rules14 line := by
    intro line
    unfold detectV3
    cases hr : rules14 line with
    | some h => rfl
    | none => simp [lookAhead, nextNonBlank, isListItem]
  simp only [stepV2, stepV3, hd]

theorem runV2_good (ls : List String) : ∀ st : ScoperState, GoodState st →
    ∃ st₂, runV2 st ls = some st₂ ∧ GoodState st₂ := by
  induction ls with
  | nil => exact fun st hg => ⟨st, rfl, hg⟩
  | cons l rest ih =>
    intro st hg
    obtain ⟨st₂, hstep, hg₂⟩ := stepV3_good st l [] hg
    obtain ⟨st₃, hrun, hg₃⟩ := ih st₂ hg₂
    exact ⟨st₃, by simpa [runV2, stepV2_eq_stepV3_nil, hstep] using hrun, hg₃⟩

theorem goodState_init : GoodState initState := by
  constructor
  · decide
  · decide

/-- C3: the v3 parser is total: every input (absent input included) produces a
well-formed `ScopedKnowledge`; in the embedding the fallible content-line append
(`scopes[currentScope].push`) never fails, because the current scope name is a key
of the table at every step of the pass. -/
theorem claim3_total (input : Option String) :
    ∃ r, useKnowledgeScoper input = some r := by
  cases input with
  | none => exact ⟨emptyResult, rfl⟩
  | some s =>
    unfold useKnowledgeScoper
    by_cases he : s.data.isEmpty
    · exact ⟨emptyResult, by simp [he]⟩
    · obtain ⟨st₂, hrun, _⟩ := runV3_good (jsSplitLines s) initState goodState_init
      exact ⟨resultOf st₂, by simp [he, hrun]⟩

theorem claim3_total_witness :
    ∃ r, useKnowledgeScoper (some "[A]\nx") = some r :=
  claim3_total (some "[A]\nx")

/-- C1, counterexample: on the spec's Scenario D input the code keeps both
sentinel lines as ordinary content of GLOBAL (they are not detected as headers,
since the following line is not a list item), so the result is not
`GLOBAL: ["Rule A"]`. -/
theorem claim1_counterexample :
    useKnowledgeScoper (some "START KNOWLEDGE\nRule A\nEND KNOWLEDGE") =
      some ⟨[(GLOBAL_KEY, ["START KNOWLEDGE", "Rule A", "END KNOWLEDGE"])],
            [GLOBAL_KEY]⟩ ∧
    useKnowledgeScoper (some "START KNOWLEDGE\nRule A\nEND KNOWLEDGE") ≠
      some ⟨[(GLOBAL_KEY, ["Rule A"])], [GLOBAL_KEY]⟩ := by
  constructor
  · decide
  · decide

/-- C1, amended: sentinel texts never appear as a key of the scopes table, and a
detected header whose normalized text is a sentinel leaves the state unchanged
(no scope switch, line dropped); but a sentinel line that no header rule detects
is kept verbatim as content, as the Scenario D input shows. -/
theorem claim1_amended :
    (∀ input r, useKnowledgeScoper input = some r →
      ∀ k ∈ r.scopes.map Prod.fst, isSentinelKey k = false) ∧
    (∀ st h, isSentinelKey (normalizeScope h) = true → applyHeader st h = st) ∧
    useKnowledgeScoper (some "START KNOWLEDGE\nRule A\nEND KNOWLEDGE") =
      some ⟨[(GLOBAL_KEY, ["START KNOWLEDGE", "Rule A", "END KNOWLEDGE"])],
            [GLOBAL_KEY]⟩ := by
  refine ⟨?_, ?_, by decide⟩
  · intro input r hr
    cases input with
    | none =>
      simp only [useKnowledgeScoper, Option.some.injEq] at hr
      subst hr; decide
    | some s =>
      by_cases he : s.data.isEmpty
      · simp only [useKnowledgeScoper, he, if_true] at hr
        cases hr; decide
      · obtain ⟨st₂, hrun, _, hkeys⟩ := runV3_good (jsSplitLines s) initState goodState_init
        simp only [useKnowledgeScoper, he, if_false, Bool.false_eq_true, hrun,
          Option.some.injEq] at hr
        subst hr
        exact hkeys
  · intro st h hs
    simp [applyHeader, hs]

theorem claim1_amended_witness :
    isSentinelKey GLOBAL_KEY = false ∧
    applyHeader initState " start knowledge " = initState :=
  ⟨claim1_amended.1 none emptyResult rfl GLOBAL_KEY (by decide),
   claim1_amended.2.1 initState " start knowledge " (by decide)⟩

/-- C2 fails on the code: scope names that are canonical integer strings are
enumerated by `Object.keys` before all insertion-ordered string keys, so for the
input `"[42]"` the result's `availableScopes` starts with `"42"`, not GLOBAL. -/
theorem claim2_global_not_first :
    useKnowledgeScoper (some "[42]") =
      some ⟨[(GLOBAL_KEY, []), ("42", [])], ["42", GLOBAL_KEY]⟩ ∧
    (["42", GLOBAL_KEY].head? = some "42" ∧ "42" ≠ GLOBAL_KEY) := by
  constructor
  · decide
  · decide

/-- C4: absent and empty input both give the minimal result
`{ scopes: { GLOBAL: [] }, availableScopes: [GLOBAL] }`, and the two results are
equal. -/
theorem claim4_empty_input :
    useKnowledgeScoper none = some ⟨[(GLOBAL_KEY, [])], [GLOBAL_KEY]⟩ ∧
    useKnowledgeScoper (some "") = some ⟨[(GLOBAL_KEY, [])], [GLOBAL_KEY]⟩ ∧
    useKnowledgeScoper none = useKnowledgeScoper (some "") := by
  refine ⟨rfl, by decide, by decide⟩

/-- C8, Scenario A: `"Intro line\n[Rules]\n- do X\n- do Y"` puts the leading
content line under GLOBAL, opens scope RULES at the bracketed header, and appends
the two trimmed list lines to RULES; `availableScopes = [GLOBAL, RULES]`. -/
theorem claim8_scenario_a :
    useKnowledgeScoper (some "Intro line\n[Rules]\n- do X\n- do Y") =
      some ⟨[(GLOBAL_KEY, ["Intro line"]), ("RULES", ["- do X", "- do Y"])],
            [GLOBAL_KEY, "RULES"]⟩ := by
  decide

/-- C5: header detection tries the explicit rules in the fixed order bracket,
markdown, bold, colon (the colon rule gated by length below 50), with the
look-ahead heuristic last, and the first match wins; a line of the shape
`[<text>]:` is matched by the bracket rule with extracted text `<text>` and is
rejected by the colon rule. -/
theorem claim5_priority :
    (∀ line rest h, bracketMatch line = some h → detectV3 line rest = some h) ∧
    (∀ line rest h, bracketMatch line = none → mdMatch line = some h →
      detectV3 line rest = some h) ∧
    (∀ line rest h, bracketMatch line = none → mdMatch line = none →
      boldMatch line = some h → detectV3 line rest = some h) ∧
    (∀ line rest h, bracketMatch line = none → mdMatch line = none →
      boldMatch line = none → colonMatch line = some h → line.length < 50 →
      detectV3 line rest = some h) ∧
    (∀ line rest, rules14 line = none → detectV3 line rest = lookAhead line rest) ∧
    (∀ line inner, line.data = '[' :: inner.data ++ [']', ':'] → inner.data ≠ [] →
      (∀ c ∈ inner.data, c ≠ ']') →
      bracketMatch line = some inner ∧ colonMatch line = none) := by
  refine ⟨?_, ?_, ?_, ?_, ?_, ?_⟩
  · intro line rest h h1
    simp [detectV3, rules14, h1]
  · intro line rest h h1 h2
    simp [detectV3, rules14, h1, h2]
  · intro line rest h h1 h2 h3
    simp [detectV3, rules14, h1, h2, h3]
  · intro line rest h h1 h2 h3 h4 h5
    simp [detectV3, rules14, h1, h2, h3, h4, h5]
  · intro line rest h1
    simp [detectV3, h1]
  · intro line inner hdata hne hcl
    obtain ⟨d⟩ := inner
    simp only [String.data] at hdata hne hcl
    constructor
    · have hpos : ∀ a ∈ d, (fun x => decide (x ≠ ']')) a = true := by
        intro a ha
        simpa using hcl a ha
      unfold bracketMatch
      rw [hdata]
      simp only [List.cons_append, List.head?_cons, List.tail_cons,
        List.takeWhile_append_of_pos hpos, List.dropWhile_append_of_pos hpos]
      simp [hne]
    · have hform : '[' :: d ++ [']', ':'] = ('[' :: d ++ [']']) ++ [':'] := by simp
      unfold colonMatch
      rw [hdata, hform, List.getLast?_concat, List.dropLast_concat]
      simp [colonClass]

/-- C5 witness: `"[Foo]:"` is detected by the bracket rule with header `"Foo"`
and does not match the colon rule. -/
theorem claim5_witness :
    detectV3 "[Foo]:" [] = some "Foo" ∧ colonMatch "[Foo]:" = none := by
  have h := claim5_priority.2.2.2.2.2 "[Foo]:" "Foo" (by decide) (by decide)
    (by decide)
  exact ⟨claim5_priority.1 "[Foo]:" [] "Foo" h.1, h.2⟩

/-- C6: on a line missed by rules 1 to 4, the look-ahead rule fires (returning
the line itself as header) exactly when the next non-blank line is a list item,
the current line is not a list item, is shorter than 60 characters, and does not
end in sentence punctuation; Scenario B evaluates as claimed. -/
theorem claim6_lookahead :
    (∀ line rest, rules14 line = none →
      (detectV3 line rest = some line ↔
        (isListItem (nextNonBlank rest) = true ∧ isListItem line = false ∧
         line.length < 60 ∧ endsSentence line = false))) ∧
    (∀ line rest, rules14 line = none →
      detectV3 line rest = none ∨ detectV3 line rest = some line) ∧
    useKnowledgeScoper (some "Bonus 1\n1. Extra credit task") =
      some ⟨[(GLOBAL_KEY, []), ("BONUS 1", ["1. Extra credit task"])],
            [GLOBAL_KEY, "BONUS 1"]⟩ := by
  refine ⟨?_, ?_, by decide⟩
  · intro line rest h1
    simp only [detectV3, h1, lookAhead]
    by_cases hc : (isListItem (nextNonBlank rest) && !isListItem line &&
        decide (line.length < 60) && !endsSentence line) = true
    · simp only [hc, if_true]
      simp only [Bool.and_eq_true, Bool.not_eq_true', decide_eq_true_eq] at hc
      constructor
      · intro
        exact ⟨hc.1.1.1, hc.1.1.2, hc.1.2, hc.2⟩
      · intro
        trivial
    · simp only [hc, if_false]
      simp only [Bool.and_eq_true, Bool.not_eq_true', decide_eq_true_eq] at hc
      constructor
      · intro hcontra
        cases hcontra
      · intro hconds
        exact absurd ⟨⟨⟨hconds.1, hconds.2.1⟩, hconds.2.2.1⟩, hconds.2.2.2⟩ hc
  · intro line rest h1
    simp only [detectV3, h1, lookAhead]
    by_cases hc : (isListItem (nextNonBlank rest) && !isListItem line &&
        decide (line.length < 60) && !endsSentence line) = true
    · right; simp [hc]
    · left; simp [hc]

/-- C6 witness: `"Bonus 1"` followed by `"1. Extra credit task"` is detected as
an implicit header by the look-ahead rule. -/
theorem claim6_witness :
    detectV3 "Bonus 1" ["1. Extra credit task"] = some "Bonus 1" :=
  (claim6_lookahead.1 "Bonus 1" ["1. Extra credit task"] (by decide)).mpr
    (by decide)

/-- C7: a line ending in `.`, `!` or `?` is never turned into a header by the
look-ahead rule, even when the next line is a list item; Scenario C keeps both
lines as GLOBAL content. -/
theorem claim7_sentence_blocks :
    (∀ line rest, endsSentence line = true → lookAhead line rest = none) ∧
    (∀ line rest, rules14 line = none → endsSentence line = true →
      detectV3 line rest = none) ∧
    useKnowledgeScoper
        (some "This is a long sentence that ends with punctuation.\n- item") =
      some ⟨[(GLOBAL_KEY,
              ["This is a long sentence that ends with punctuation.", "- item"])],
            [GLOBAL_KEY]⟩ := by
  refine ⟨?_, ?_, by decide⟩
  · intro line rest h1
    simp [lookAhead, h1]
  · intro line rest h1 h2
    simp [detectV3, h1, lookAhead, h2]

/-- C7 witness: a sentence-terminated line before a list item is not a header. -/
theorem claim7_witness : detectV3 "It ends now." ["- item"] = none :=
  claim7_sentence_blocks.2.1 "It ends now." ["- item"] (by decide) (by decide)

theorem toNat_ofNat_of_lt {n : Nat} (h : n < 55296) : (Char.ofNat n).toNat = n := by
  unfold Char.ofNat
  rw [dif_pos (Or.inl h)]
  rfl

theorem jsIsSpace_false_of {c : Char} (h1 : 65 ≤ c.toNat) (h2 : c.toNat ≤ 122) :
    jsIsSpace c = false := by
  cases hb : jsIsSpace c with
  | false => rfl
  | true =>
    exfalso
    simp only [jsIsSpace, Bool.or_eq_true, Bool.and_eq_true, decide_eq_true_eq] at hb
    omega

theorem jsIsSpace_toUpper (c : Char) : jsIsSpace (Char.toUpper c) = jsIsSpace c := by
  simp only [Char.toUpper]
  by_cases h : c.toNat ≥ 97 ∧ c.toNat ≤ 122
  · rw [if_pos h]
    have hv : (Char.ofNat (c.toNat - 32)).toNat = c.toNat - 32 :=
      toNat_ofNat_of_lt (by omega)
    have ha : jsIsSpace (Char.ofNat (c.toNat - 32)) = false := by
      apply jsIsSpace_false_of <;> rw [hv] <;> omega
    have hb : jsIsSpace c = false := jsIsSpace_false_of (by omega) (by omega)
    rw [ha, hb]
  · rw [if_neg h]

theorem trimChars_map_toUpper (l : List Char) :
    trimChars (l.map Char.toUpper) = (trimChars l).map Char.toUpper := by
  have hfun : jsIsSpace ∘ Char.toUpper = jsIsSpace := funext jsIsSpace_toUpper
  unfold trimChars
  rw [List.dropWhile_map, hfun, ← List.map_reverse, List.dropWhile_map, hfun,
    ← List.map_reverse]

theorem trimChars_append_left (ws m : List Char) (h : ∀ c ∈ ws, jsIsSpace c = true) :
    trimChars (ws ++ m) = trimChars m := by
  unfold trimChars
  rw [List.dropWhile_append_of_pos h]

theorem trimChars_append_right (m ws : List Char) (h : ∀ c ∈ ws, jsIsSpace c = true) :
    trimChars (m ++ ws) = trimChars m := by
  unfold trimChars
  rw [List.dropWhile_append]
  by_cases hm : (m.dropWhile jsIsSpace).isEmpty
  · rw [if_pos hm]
    have hm' : m.dropWhile jsIsSpace = [] := by simpa [List.isEmpty_iff] using hm
    have hws : ws.dropWhile jsIsSpace = [] :=
      List.dropWhile_eq_nil_iff.mpr fun x hx => h x hx
    rw [hws, hm']
  · rw [if_neg hm]
    rw [List.reverse_append]
    rw [List.dropWhile_append_of_pos fun a ha => h a (List.mem_reverse.mp ha)]

theorem normalizeScope_eq_trim_upper (h : String) :
    normalizeScope h = jsTrim (jsToUpper h) := by
  unfold normalizeScope jsToUpper jsTrim
  simp only
  rw [trimChars_map_toUpper]

/-- C9: header texts that agree after uppercasing (case difference), or that
differ only by surrounding whitespace, normalize to the same scope key; applying
a header depends only on the normalized key; re-encountering an existing key
leaves the scope table (hence every key position) unchanged; and a concrete run
shows `[Rules]` and `[ RULES ]` accumulating in the single entry RULES at its
first-occurrence position. -/
theorem claim9_normalization :
    (∀ h₁ h₂ : String, jsToUpper h₁ = jsToUpper h₂ →
      normalizeScope h₁ = normalizeScope h₂) ∧
    (∀ (s t : String) (ws₁ ws₂ : List Char),
      t.data = ws₁ ++ (s.data ++ ws₂) → ws₁.all jsIsSpace = true →
      ws₂.all jsIsSpace = true → normalizeScope t = normalizeScope s) ∧
    (∀ st h₁ h₂, normalizeScope h₁ = normalizeScope h₂ →
      applyHeader st h₁ = applyHeader st h₂) ∧
    (∀ st h, (lookupScope st.scopes (normalizeScope h)).isSome = true →
      (applyHeader st h).scopes = st.scopes) ∧
    useKnowledgeScoper (some "[Rules]\nc1\n[ RULES ]\nc2") =
      some ⟨[(GLOBAL_KEY, []), ("RULES", ["c1", "c2"])], [GLOBAL_KEY, "RULES"]⟩ := by
  refine ⟨?_, ?_, ?_, ?_, by decide⟩
  · intro h₁ h₂ he
    rw [normalizeScope_eq_trim_upper, normalizeScope_eq_trim_upper, he]
  · intro s t ws₁ ws₂ ht hw1 hw2
    have hw1' : ∀ c ∈ ws₁, jsIsSpace c = true := by
      simpa [List.all_eq_true] using hw1
    have hw2' : ∀ c ∈ ws₂, jsIsSpace c = true := by
      simpa [List.all_eq_true] using hw2
    unfold normalizeScope
    congr 1
    unfold jsTrim
    rw [ht, trimChars_append_left _ _ hw1', trimChars_append_right _ _ hw2']
  · intro st h₁ h₂ he
    unfold applyHeader
    rw [he]
  · intro st h hl
    simp only [applyHeader]
    by_cases hs : isSentinelKey (normalizeScope h) = true
    · simp [hs]
    · simp [hs, hl]

/-- C9 witness: `" Rules "` and `"rULES"` normalize to the same key and produce
the same header action. -/
theorem claim9_witness :
    normalizeScope " Rules " = normalizeScope "rULES" ∧
    applyHeader initState " Rules " = applyHeader initState "rULES" := by
  have h1 : normalizeScope " Rules " = normalizeScope "Rules" :=
    claim9_normalization.2.1 "Rules" " Rules " [' '] [' ']
      (by decide) (by decide) (by decide)
  have h2 : normalizeScope "Rules" = normalizeScope "rULES" :=
    claim9_normalization.1 "Rules" "rULES" (by decide)
  exact ⟨h1.trans h2,
    claim9_normalization.2.2.1 initState " Rules " "rULES" (h1.trans h2)⟩

theorem stepV3_eq_stepV2_of_no_fire (st : ScoperState) (l : String)
    (rest : List String) (h : lookAheadFires l rest = false) :
    stepV3 st l rest = stepV2 st l := by
  unfold stepV3 stepV2
  by_cases hb : (jsTrim l).data.isEmpty
  · simp [hb]
  · simp only [hb, if_false, Bool.false_eq_true]
    cases hr : rules14 (jsTrim l) with
    | some hd => simp [detectV3, hr]
    | none =>
      cases hla : lookAhead (jsTrim l) rest with
      | none => simp [detectV3, hr, hla]
      | some x =>
        exfalso
        simp [lookAheadFires, hb, hr, hla] at h

theorem runV3_eq_runV2 (ls : List String) : ∀ st, noLookAheadFiring ls = true →
    runV3 st ls = runV2 st ls := by
  induction ls with
  | nil => intro st _; rfl
  | cons l rest ih =>
    intro st h
    simp only [noLookAheadFiring, Bool.and_eq_true, Bool.not_eq_true'] at h
    obtain ⟨h1, h2⟩ := h
    unfold runV3 runV2
    rw [stepV3_eq_stepV2_of_no_fire st l rest h1]
    cases stepV2 st l with
    | none => rfl
    | some st₂ => exact ih st₂ h2

/-- C10: on any input none of whose lines triggers the v3 look-ahead heuristic,
the v2 and v3 parsers return identical results. -/
theorem claim10_equiv (input : Option String)
    (h : noLookAheadFiring (linesOfInput input) = true) :
    useKnowledgeScoper input = useKnowledgeScoperV2 input := by
  cases input with
  | none => rfl
  | some s =>
    unfold useKnowledgeScoper useKnowledgeScoperV2
    by_cases he : s.data.isEmpty
    · simp [he]
    · simp only [he, if_false, Bool.false_eq_true]
      rw [runV3_eq_runV2 (jsSplitLines s) initState
        (by simpa [linesOfInput] using h)]

/-- C10 witness: a concrete input with no look-ahead firing on which the two
revisions agree. -/
theorem claim10_witness :
    noLookAheadFiring (linesOfInput (some "A\n[X]\ncontent")) = true ∧
    useKnowledgeScoper (some "A\n[X]\ncontent") =
      useKnowledgeScoperV2 (some "A\n[X]\ncontent") :=
  ⟨by decide, claim10_equiv (some "A\n[X]\ncontent") (by decide)⟩
